import Mathlib

/-!
Shallow embedding of the resume-to-JD matching engine
(`backend/app.py`, `backend/matching.py`, `backend/utils.py`) and proofs
about the behaviour claimed in the specification.

Text is modelled as `List Char` (ASCII fragment of Python `str`); scores
computed with Python floats are modelled as exact rationals, with Python
`int()` truncation modelled as natural-number division and Python
`round` modelled as round-half-to-even on rationals.
-/

namespace ResumeMatch

/-- Shorthand for model text. -/
abbrev Txt := List Char

/-- Turn a Lean string literal into model text. -/
def toL (s : String) : Txt := s.toList

/-- Python `\s` for the ASCII whitespace characters. -/
def isWsChar (c : Char) : Bool :=
  c = ' ' || c = '\t' || c = '\n' || c = '\r' || c = '\x0b' || c = '\x0c'

/-- Python `\w` (ASCII fragment): letters, digits and underscore. -/
def isWordChar (c : Char) : Bool := c.isAlphanum || c = '_'

/-- Python substring containment `needle in hay`. -/
def containsSub (needle : Txt) : Txt → Bool
  | [] => needle.isEmpty
  | c :: cs => needle.isPrefixOf (c :: cs) || containsSub needle cs

/-- Python `str.lower` (ASCII). -/
def lowerL (t : Txt) : Txt := t.map Char.toLower

/-- One step of whitespace-run collapsing; the flag records whether the
previous character was whitespace. Models `re.sub(r'\s+', ' ', text)`. -/
def collapseWsAux : Bool → Txt → Txt
  | _, [] => []
  | prevWs, c :: cs =>
    if isWsChar c then
      if prevWs then collapseWsAux true cs else ' ' :: collapseWsAux true cs
    else c :: collapseWsAux false cs

/-- Python `re.sub(r'\s+', ' ', text)`: every whitespace run becomes one space. -/
def collapseWs (t : Txt) : Txt := collapseWsAux false t

/-- Python `str.split()` helper: accumulate the current word (reversed). -/
def wordsWSAux : Txt → Txt → List Txt
  | acc, [] => if acc.isEmpty then [] else [acc.reverse]
  | acc, c :: cs =>
    if isWsChar c then
      if acc.isEmpty then wordsWSAux [] cs else acc.reverse :: wordsWSAux [] cs
    else wordsWSAux (c :: acc) cs

/-- Python `str.split()`: whitespace-separated words, empties discarded. -/
def wordsWS (t : Txt) : List Txt := wordsWSAux [] t

/-- Python `str.strip()` (ASCII whitespace at both ends). -/
def trimWs (t : Txt) : Txt :=
  ((t.dropWhile isWsChar).reverse.dropWhile isWsChar).reverse

/-- The skill taxonomy `SKILLS` of `backend/app.py`, in source order. -/
def SKILLS : List (String × List Txt) :=
  [ ("programming",
      [toL "python", toL "java", toL "c++", toL "c#", toL "javascript",
       toL "typescript", toL "go", toL "rust", toL "scala", toL "r"]),
    ("data_science",
      [toL "machine learning", toL "deep learning", toL "nlp",
       toL "computer vision", toL "data analysis", toL "statistics",
       toL "pandas", toL "numpy", toL "scikit-learn", toL "tensorflow",
       toL "pytorch", toL "keras"]),
    ("big_data",
      [toL "spark", toL "kafka", toL "hadoop", toL "pyspark", toL "hive",
       toL "storm", toL "flink", toL "elasticsearch", toL "mongodb",
       toL "cassandra"]),
    ("databases",
      [toL "sql", toL "mysql", toL "postgresql", toL "oracle", toL "sqlite",
       toL "nosql", toL "redis", toL "dynamodb"]),
    ("cloud",
      [toL "aws", toL "azure", toL "gcp", toL "docker", toL "kubernetes",
       toL "terraform", toL "jenkins", toL "ci/cd"]),
    ("web",
      [toL "html", toL "css", toL "react", toL "angular", toL "vue",
       toL "node.js", toL "express", toL "django", toL "flask", toL "spring"]),
    ("tools",
      [toL "git", toL "tableau", toL "power bi", toL "excel", toL "jira",
       toL "confluence", toL "linux", toL "unix"]),
    ("soft_skills",
      [toL "communication", toL "leadership", toL "teamwork",
       toL "problem solving", toL "analytical thinking",
       toL "project management"]) ]

/-- The JD scan of `calculate_score` (`app.py` lines 109-115): every taxonomy
skill that occurs as a substring of the lowercased JD text, paired with its
category. The pair list plays the role of `jd_skills` plus the
`skill_categories` dict (whose keys are set exactly once each). -/
def jdSkillPairs (jdText : Txt) : List (Txt × String) :=
  SKILLS.flatMap fun cs =>
    (cs.2.filter fun sk => containsSub sk (lowerL jdText)).map fun sk => (sk, cs.1)

/-- Lookup in the `skill_categories` dict with default `"general"`
(`skill_categories.get(skill, "general")`). -/
def lookupCat (pairs : List (Txt × String)) (sk : Txt) : String :=
  ((pairs.find? fun p => p.1 == sk).map Prod.snd).getD "general"

/-- Python `str.title()` (ASCII): uppercase a letter that follows a
non-letter, lowercase a letter that follows a letter. -/
def titleCaseAux : Bool → Txt → Txt
  | _, [] => []
  | prevAlpha, c :: cs =>
    if c.isAlpha then
      (if prevAlpha then c.toLower else c.toUpper) :: titleCaseAux true cs
    else c :: titleCaseAux false cs

/-- Python `str.title()`. -/
def titleCase (t : Txt) : Txt := titleCaseAux false t

/-- The `get_skill_suggestions` templates of `app.py`, keyed by category. -/
def get_skill_suggestions (skill : Txt) (category : String) : Txt :=
  if category == "programming" then
    toL "Complete online courses for " ++ skill ++ toL " programming. Build 2-3 projects showcasing " ++ skill ++ toL " skills. Contribute to open-source " ++ skill ++ toL " projects."
  else if category == "data_science" then
    toL "Take specialized courses in " ++ skill ++ toL ". Work on real-world datasets using " ++ skill ++ toL ". Create a portfolio project demonstrating " ++ skill ++ toL " expertise."
  else if category == "big_data" then
    toL "Get hands-on experience with " ++ skill ++ toL " through cloud platforms. Complete certification courses. Build end-to-end projects using " ++ skill ++ toL "."
  else if category == "databases" then
    toL "Practice " ++ skill ++ toL " queries and database design. Complete database administration courses. Build applications with " ++ skill ++ toL " integration."
  else if category == "cloud" then
    toL "Pursue " ++ skill ++ toL " certifications. Set up personal projects using " ++ skill ++ toL " services. Learn infrastructure as code with " ++ skill ++ toL "."
  else if category == "web" then
    toL "Build responsive web applications using " ++ skill ++ toL ". Complete full-stack development courses. Deploy projects showcasing " ++ skill ++ toL " skills."
  else if category == "tools" then
    toL "Get proficient in " ++ skill ++ toL " through daily practice. Complete relevant certifications. Use " ++ skill ++ toL " in your projects and document the process."
  else if category == "soft_skills" then
    toL "Develop " ++ skill ++ toL " through practical experience. Join relevant workshops or courses. Demonstrate " ++ skill ++ toL " through project leadership and team collaboration."
  else
    toL "Learn " ++ skill ++ toL " through courses, tutorials, and hands-on practice. Add relevant projects to your portfolio."

/-- One entry of the improvement plan built by `calculate_score`. -/
structure PlanItem where
  skill : Txt
  category : Txt
  suggestion : Txt
  priority : String
  deriving Repr, DecidableEq

/-- The tuple returned by `calculate_score`. -/
structure ScoreResult where
  score : Nat
  verdict : String
  missing : List Txt
  matched : List Txt
  plan : List PlanItem
  deriving Repr, DecidableEq

/-- The verdict ladder of `calculate_score` (`app.py` lines 130-138). -/
def verdictOf (score : Nat) : String :=
  if score ≥ 80 then "Excellent"
  else if score ≥ 60 then "Good"
  else if score ≥ 40 then "Average"
  else "Needs Improvement"

/-- The improvement-plan entry `calculate_score` builds for one missing
skill (`app.py` lines 141-151): category from the `skill_categories` dict
with default `"general"`, title-cased skill and category, templated
suggestion, priority High exactly for programming and data_science. -/
def planItemOf (pairs : List (Txt × String)) (sk : Txt) : PlanItem :=
  let cat := lookupCat pairs sk
  { skill := titleCase sk
    category := titleCase (cat.toList.map fun c => if c = '_' then ' ' else c)
    suggestion := get_skill_suggestions sk cat
    priority := if cat == "programming" || cat == "data_science" then "High" else "Medium" }

/-- `calculate_score` of `app.py` (lines 106-155).  Presence of a skill in a
text is Python substring containment.  `missing_skills`, in the source
`list(set(jd_skills) - set(matched_skills))` with unspecified set order, is
modelled as the JD-order filter of the unmatched skills (the same multiset,
since taxonomy skills are pairwise distinct).  The score
`int(len(matched)/len(jd_skills)*100)` truncates toward zero, modelled by
natural division. -/
def calculate_score (resumeText jdText : Txt) : ScoreResult :=
  let pairs := jdSkillPairs jdText
  let jdSkills := pairs.map Prod.fst
  let matched := jdSkills.filter fun sk => containsSub sk (lowerL resumeText)
  let missing := jdSkills.filter fun sk => !(matched.contains sk)
  let score := if jdSkills.isEmpty then 0 else (100 * matched.length) / jdSkills.length
  { score := score
    verdict := verdictOf score
    missing := missing
    matched := matched
    plan := missing.map (planItemOf pairs) }

/-- Word-boundary test of Python `re`: `\b` holds between two positions
exactly when one side is a `\w` character and the other is not (an absent
character counts as non-word). -/
def boundary (left right : Option Char) : Bool :=
  (left.elim false isWordChar) != (right.elim false isWordChar)

/-- Does the literal pattern `\b term \b` (the `re.escape`d skill) match the
text beginning at its head, given the character just before it? -/
def wbHere (term text : Txt) (prev : Option Char) : Bool :=
  term.isPrefixOf text &&
  boundary prev text.head? &&
  boundary term.getLast? (text.drop term.length).head?

/-- Scan of `re.search(r'\b' + re.escape(term) + r'\b', text)` keeping the
previous character for the left boundary. -/
def wbSearchAux (term : Txt) : Option Char → Txt → Bool
  | _, [] => false
  | prev, c :: cs => wbHere term (c :: cs) prev || wbSearchAux term (some c) cs

/-- `re.search(r'\b' + re.escape(term) + r'\b', text)` as a Boolean, for a
non-empty literal term. -/
def wbMatch (term text : Txt) : Bool := wbSearchAux term none text

/-- Per-category skill classification of `advanced_skill_matching`
(`matching.py` lines 167-180): a skill is matched when its `\b`-delimited
pattern is found in the lowercased resume, missing when it is not found in
the resume but is found in the lowercased JD. -/
structure CategoryResult where
  matched : List Txt
  missing : List Txt
  totalRequired : Nat
  deriving Repr, DecidableEq

/-- The body of the category loop of `advanced_skill_matching`. -/
def advancedCategory (skills : List Txt) (resumeText jdText : Txt) : CategoryResult :=
  { matched := skills.filter fun sk => wbMatch (lowerL sk) (lowerL resumeText)
    missing := skills.filter fun sk =>
      !(wbMatch (lowerL sk) (lowerL resumeText)) && wbMatch (lowerL sk) (lowerL jdText)
    totalRequired := (skills.filter fun sk => wbMatch (lowerL sk) (lowerL jdText)).length }

/-- Characters kept verbatim by `re.sub(r'[^\w\s\.\-\+]', ' ', text)` in
`clean_text` (`utils.py`). -/
def keepAllowedElseSpace (c : Char) : Char :=
  if isWordChar c || isWsChar c || c = '.' || c = '-' || c = '+' then c else ' '

/-- The `tech_terms` whitelist of `clean_text` (`utils.py` line 156). -/
def techTerms : List Txt :=
  [toL "c", toL "r", toL "ai", toL "ml", toL "ui", toL "ux", toL "qa",
   toL "ci", toL "cd", toL "it", toL "bi", toL "etl"]

/-- The word filter of `clean_text`: keep a word when it has length at least
2 or is a whitelisted tech term. -/
def keepWord (w : Txt) : Bool := decide (2 ≤ w.length) || techTerms.contains w

/-- Single-space join, `' '.join(filtered_words)`. -/
def joinSpace (ws : List Txt) : Txt := List.intercalate [' '] ws

/-- Python `str.replace(pat, rep)` with explicit fuel; each step consumes at
least one character of the text, so `text.length` steps suffice.  The scan
is left to right and non-overlapping, exactly like Python `replace`. -/
def replaceAllFuel (pat rep : Txt) : Nat → Txt → Txt
  | 0, s => s
  | _ + 1, [] => []
  | fuel + 1, c :: cs =>
    if pat.isPrefixOf (c :: cs) then
      rep ++ replaceAllFuel pat rep fuel (List.drop (pat.length - 1) cs)
    else c :: replaceAllFuel pat rep fuel cs

/-- Python `text.replace(pat, rep)` for a non-empty pattern. -/
def replaceAll (pat rep : Txt) (s : Txt) : Txt := replaceAllFuel pat rep s.length s

/-- The phrase-canonicalization table of `clean_text` (`utils.py` lines
165-182), in dict insertion order. -/
def replacementList : List (Txt × Txt) :=
  [ (toL "machine learning", toL "machine_learning"),
    (toL "data science", toL "data_science"),
    (toL "computer vision", toL "computer_vision"),
    (toL "natural language processing", toL "nlp"),
    (toL "artificial intelligence", toL "ai"),
    (toL "deep learning", toL "deep_learning"),
    (toL "big data", toL "big_data"),
    (toL "cloud computing", toL "cloud_computing"),
    (toL "software engineering", toL "software_engineering"),
    (toL "web development", toL "web_development"),
    (toL "mobile development", toL "mobile_development"),
    (toL "database management", toL "database_management"),
    (toL "project management", toL "project_management"),
    (toL "quality assurance", toL "qa"),
    (toL "user experience", toL "ux"),
    (toL "user interface", toL "ui") ]

/-- The replacement loop `for phrase, replacement in replacements.items()`. -/
def applyReplacements (s : Txt) : Txt :=
  replacementList.foldl (fun acc pr => replaceAll pr.1 pr.2 acc) s

/-- `clean_text` of `utils.py` (lines 139-187): lowercase, collapse
whitespace, blank out disallowed characters, drop short words not in the
tech-term whitelist, canonicalize known phrases, strip. -/
def clean_text (t : Txt) : Txt :=
  if t.isEmpty then []
  else
    trimWs (applyReplacements (joinSpace
      ((wordsWS ((collapseWs (lowerL t)).map keepAllowedElseSpace)).filter keepWord)))

/-- Python `str.split('\n')` helper: the accumulator holds the current line
reversed; empty lines are kept. -/
def splitNlAux : Txt → Txt → List Txt
  | acc, [] => [acc.reverse]
  | acc, c :: cs => if c = '\n' then acc.reverse :: splitNlAux [] cs else splitNlAux (c :: acc) cs

/-- Python `str.split('\n')`. -/
def splitNl (t : Txt) : List Txt := splitNlAux [] t

/-- One capitalized word `[A-Z][a-z]+` taken greedily from the head of the
text, returned with the rest of the text. -/
def capWord (t : Txt) : Option (Txt × Txt) :=
  match t with
  | [] => none
  | c :: cs =>
    if c.isUpper then
      let tail := cs.takeWhile Char.isLower
      if tail.isEmpty then none else some (c :: tail, cs.drop tail.length)
    else none

/-- The anchored name pattern `^([A-Z][a-z]+(?: [A-Z][a-z]+){1,2})` of
`extract_candidate_name_from_text`: two words mandatory, a third taken
greedily when available. -/
def nameMatch (line : Txt) : Option Txt :=
  match capWord line with
  | none => none
  | some (w1, r1) =>
    match r1 with
    | ' ' :: r2 =>
      match capWord r2 with
      | none => none
      | some (w2, r3) =>
        match r3 with
        | ' ' :: r4 =>
          match capWord r4 with
          | some (w3, _) => some (w1 ++ ' ' :: w2 ++ ' ' :: w3)
          | none => some (w1 ++ ' ' :: w2)
        | _ => some (w1 ++ ' ' :: w2)
    | _ => none

/-- Header detection of `extract_candidate_name_from_text`: the lowercased
line contains one of the skip words. -/
def isHeaderLine (line : Txt) : Bool :=
  [toL "resume", toL "cv", toL "curriculum", toL "@", toL "phone"].any
    fun w => containsSub w (lowerL line)

/-- The line loop of `extract_candidate_name_from_text`: skip header lines,
return the first pattern match that passes the word-count and length
checks, otherwise keep scanning. -/
def firstNameFrom : List Txt → Option Txt
  | [] => none
  | line :: rest =>
    if isHeaderLine line then firstNameFrom rest
    else
      match nameMatch line with
      | none => firstNameFrom rest
      | some nm =>
        let name := titleCase (trimWs nm)
        let wc := (wordsWS name).length
        if 2 ≤ wc && wc ≤ 3 && 4 ≤ name.length && name.length ≤ 30 then some name
        else firstNameFrom rest

/-- `extract_candidate_name_from_text` of `app.py` (lines 65-89): examine the
stripped non-empty lines among the first 3 lines of the given text. -/
def extract_candidate_name_from_text (t : Txt) : Option Txt :=
  if t.isEmpty then none
  else firstNameFrom ((((splitNl t).take 3).map trimWs).filter fun l => !l.isEmpty)

/-- The normalization tail of `extract_text` in `app.py` (lines 58-60):
collapse whitespace, blank out non-word non-space characters, lowercase,
strip.  This is the text `match_resume` passes onward. -/
def appExtractNormalize (t : Txt) : Txt :=
  trimWs (lowerL ((collapseWs t).map fun c => if isWordChar c || isWsChar c then c else ' '))

/-- An uploaded document as the route sees it: the declared filename and the
text that `extract_text` produces for it (empty when extraction fails). -/
structure UploadFile where
  filename : Txt
  extracted : Txt
  deriving Repr, DecidableEq

/-- A `/match` request: either form field may be absent. -/
structure MatchRequest where
  resume : Option UploadFile
  jd : Option UploadFile
  deriving Repr, DecidableEq

/-- The success payload assembled by `match_resume` (the fields derived from
the two texts; filenames and timestamp are echoes of the input). -/
structure AnalysisResult where
  result : ScoreResult
  totalSkillsRequired : Nat
  skillsMatched : Nat
  resumeWordCount : Nat
  jdWordCount : Nat
  candidateName : Option Txt
  deriving Repr, DecidableEq

/-- `match_resume` of `app.py` (lines 157-203): reject a request with a
missing part, an empty filename, or empty extracted text with an HTTP 400
error body, otherwise score the pair.  The error string and status code are
returned; no scoring payload accompanies an error. -/
def match_resume (req : MatchRequest) : Except (String × Nat) AnalysisResult :=
  match req.resume, req.jd with
  | some rf, some jf =>
    if rf.filename.isEmpty || jf.filename.isEmpty then
      Except.error ("No files selected", 400)
    else
      let resumeText := rf.extracted
      let jdText := jf.extracted
      if resumeText.isEmpty || jdText.isEmpty then
        Except.error ("Could not extract text from files", 400)
      else
        let r := calculate_score resumeText jdText
        Except.ok
          { result := r
            totalSkillsRequired := r.missing.length + r.matched.length
            skillsMatched := r.matched.length
            resumeWordCount := (wordsWS resumeText).length
            jdWordCount := (wordsWS jdText).length
            candidateName := extract_candidate_name_from_text resumeText }
  | _, _ => Except.error ("Resume or JD file missing", 400)

/-- Does a request fall in the input-validation failure cases of the route? -/
def badInput (req : MatchRequest) : Bool :=
  match req.resume, req.jd with
  | some rf, some jf =>
    rf.filename.isEmpty || jf.filename.isEmpty || rf.extracted.isEmpty || jf.extracted.isEmpty
  | _, _ => true

/-- The clamp `max(0.0, min(1.0, similarity))` used by every scorer in
`matching.py`. -/
def clamp01 (q : ℚ) : ℚ := max 0 (min 1 q)

/-- Outcome of a vectorizer or embedding computation: either the cosine
similarity it produced, or the raised exception its `except` branch
catches.  The numeric value itself comes from an external library, so it is
a parameter of the model. -/
inductive VecOutcome where
  | sim (q : ℚ)
  | vecError
  deriving Repr, DecidableEq

/-- `hard_match_score` of `matching.py` (lines 16-45): clamp the TF-IDF
cosine similarity; on an exception fall back to plain word-set overlap
`|setJD ∩ setResume| / |setJD|`, or `0.0` for an empty JD. -/
def hard_match_score (o : VecOutcome) (resumeText jdText : Txt) : ℚ :=
  match o with
  | .sim q => clamp01 q
  | .vecError =>
    let jdWords := (wordsWS (lowerL jdText)).dedup
    let resumeWords := (wordsWS (lowerL resumeText)).dedup
    if jdWords.length = 0 then 0
    else ((jdWords.filter fun w => resumeWords.contains w).length : ℚ) / jdWords.length

/-- `tfidf_semantic_match` of `matching.py` (lines 67-89): clamp the TF-IDF
cosine similarity, or return `0.0` when even that computation raises. -/
def tfidf_semantic_match (o : VecOutcome) : ℚ :=
  match o with
  | .sim q => clamp01 q
  | .vecError => 0

/-- `semantic_match_score` of `matching.py` (lines 47-65): when the
sentence-transformers backend is unavailable, or when the primary encoding
path raises, return the TF-IDF fallback; otherwise clamp the embedding
cosine similarity. -/
def semantic_match_score (available : Bool) (primary tfidf : VecOutcome) : ℚ :=
  if !available then tfidf_semantic_match tfidf
  else
    match primary with
    | .sim q => clamp01 q
    | .vecError => tfidf_semantic_match tfidf

/-- Round-half-to-even to an integer, the behaviour of Python `round` on an
exact value. -/
def roundHalfEven (q : ℚ) : ℤ :=
  if q - ⌊q⌋ < 1/2 then ⌊q⌋
  else if 1/2 < q - ⌊q⌋ then ⌊q⌋ + 1
  else if ⌊q⌋ % 2 = 0 then ⌊q⌋ else ⌊q⌋ + 1

/-- Python `round(x, 2)` on an exact value: the nearest multiple of 1/100,
ties to even. -/
def round2 (q : ℚ) : ℚ := (roundHalfEven (q * 100) : ℚ) / 100

/-- The default weights `{'hard': 0.4, 'semantic': 0.6}` of
`combined_score`. -/
def defaultWeights : ℚ × ℚ := (2/5, 3/5)

/-- `combined_score` of `matching.py` (lines 136-148): the weighted blend of
the hard and semantic scores, times 100, rounded to 2 decimals.  The
optional `weights` argument defaults to `defaultWeights`. -/
def combined_score (weights : Option (ℚ × ℚ)) (hOut : VecOutcome)
    (available : Bool) (primary tfidf : VecOutcome) (resumeText jdText : Txt) : ℚ :=
  let w := weights.getD defaultWeights
  let hard := hard_match_score hOut resumeText jdText
  let sem := semantic_match_score available primary tfidf
  round2 ((w.1 * hard + w.2 * sem) * 100)

/-- Decidable canonical-form check for a text: every stage of `clean_text`
fixes it and no canonicalization phrase occurs in it.  A text that passes
is returned unchanged by `clean_text`. -/
def isCanonical (u : Txt) : Bool :=
  (lowerL u == u) && (collapseWs u == u) && (u.map keepAllowedElseSpace == u) &&
  (joinSpace ((wordsWS u).filter keepWord) == u) &&
  (replacementList.all fun pr => !(containsSub pr.1 u)) && (trimWs u == u)

/-- The candidate-name procedure as the specification words it (examine the
FIRST 3 NON-EMPTY lines of the text), kept side by side with the source's
`extract_candidate_name_from_text` (which examines the non-empty lines
among the first 3 lines) to compare the claim against the source. -/
def specCandidateName (t : Txt) : Option Txt :=
  if t.isEmpty then none
  else firstNameFrom (((((splitNl t).map trimWs).filter fun l => !l.isEmpty)).take 3)

/-! ## Theorems -/

/-- C2: the verdict is a pure function of the integer score, with inclusive
lower-bound thresholds 80 (Excellent), 60 (Good), 40 (Average), and
"Needs Improvement" below 40. -/
theorem C2_verdict_thresholds (s : ℕ) :
    (80 ≤ s → verdictOf s = "Excellent") ∧
    (60 ≤ s → s < 80 → verdictOf s = "Good") ∧
    (40 ≤ s → s < 60 → verdictOf s = "Average") ∧
    (s < 40 → verdictOf s = "Needs Improvement") := by
  refine ⟨fun h => ?_, fun h1 h2 => ?_, fun h1 h2 => ?_, fun h => ?_⟩ <;>
    simp only [verdictOf, ge_iff_le]
  · rw [if_pos h]
  · rw [if_neg (by omega), if_pos h1]
  · rw [if_neg (by omega), if_neg (by omega), if_pos h1]
  · rw [if_neg (by omega), if_neg (by omega), if_neg (by omega)]

/-- Witness for C2 at the boundary scores 80, 79, 60, 59, 40 and 39. -/
theorem C2_verdict_thresholds_witness :
    verdictOf 80 = "Excellent" ∧ verdictOf 79 = "Good" ∧ verdictOf 60 = "Good" ∧
    verdictOf 59 = "Average" ∧ verdictOf 40 = "Average" ∧
    verdictOf 39 = "Needs Improvement" :=
  ⟨(C2_verdict_thresholds 80).1 (by decide),
   (C2_verdict_thresholds 79).2.1 (by decide) (by decide),
   (C2_verdict_thresholds 60).2.1 (by decide) (by decide),
   (C2_verdict_thresholds 59).2.2.1 (by decide) (by decide),
   (C2_verdict_thresholds 40).2.2.1 (by decide) (by decide),
   (C2_verdict_thresholds 39).2.2.2 (by decide)⟩

/-- C5: a request with a missing document, an empty filename, or empty
extracted text is rejected by `match_resume` with an HTTP 400 error and no
result payload — in particular it never produces a zero score. -/
theorem C5_input_error (req : MatchRequest) (h : badInput req = true) :
    (∃ msg : String, match_resume req = Except.error (msg, 400)) ∧
    ∀ a : AnalysisResult, match_resume req ≠ Except.ok a := by
  obtain ⟨r, j⟩ := req
  match r, j with
  | none, none => exact ⟨⟨"Resume or JD file missing", rfl⟩, fun a => by simp [match_resume]⟩
  | none, some jf => exact ⟨⟨"Resume or JD file missing", rfl⟩, fun a => by simp [match_resume]⟩
  | some rf, none => exact ⟨⟨"Resume or JD file missing", rfl⟩, fun a => by simp [match_resume]⟩
  | some rf, some jf =>
    by_cases hn : (rf.filename.isEmpty || jf.filename.isEmpty) = true
    · refine ⟨⟨"No files selected", ?_⟩, fun a => ?_⟩ <;> simp [match_resume, hn]
    · have he : (rf.extracted.isEmpty || jf.extracted.isEmpty) = true := by
        simp only [badInput] at h
        simp only [Bool.or_eq_true] at h hn ⊢
        tauto
      refine ⟨⟨"Could not extract text from files", ?_⟩, fun a => ?_⟩ <;>
        simp [match_resume, hn, he]

/-- Witness for C5: a request whose JD field is present but extracts to
empty text is rejected with a 400 error. -/
theorem C5_input_error_witness :
    (∃ msg : String,
      match_resume
        { resume := some ⟨toL "resume.txt", toL "python"⟩,
          jd := some ⟨toL "jd.txt", []⟩ } = Except.error (msg, 400)) ∧
    ∀ a : AnalysisResult,
      match_resume
        { resume := some ⟨toL "resume.txt", toL "python"⟩,
          jd := some ⟨toL "jd.txt", []⟩ } ≠ Except.ok a :=
  C5_input_error _ (by decide)

/-- C7: the improvement plan has exactly one item per missing skill; an
item's priority is "High" exactly when the category recorded for that skill
in the JD scan is programming or data_science, and every priority is either
"High" or "Medium". -/
theorem C7_improvement_plan (resumeText jdText : Txt) :
    (calculate_score resumeText jdText).plan.length =
      (calculate_score resumeText jdText).missing.length ∧
    (∀ (i : ℕ) (h1 : i < (calculate_score resumeText jdText).plan.length)
      (h2 : i < (calculate_score resumeText jdText).missing.length),
      (((calculate_score resumeText jdText).plan.get ⟨i, h1⟩).priority = "High" ↔
        (lookupCat (jdSkillPairs jdText)
            ((calculate_score resumeText jdText).missing.get ⟨i, h2⟩) = "programming" ∨
         lookupCat (jdSkillPairs jdText)
            ((calculate_score resumeText jdText).missing.get ⟨i, h2⟩) = "data_science"))) ∧
    ∀ p : PlanItem, p ∈ (calculate_score resumeText jdText).plan →
      (p.priority = "High" ∨ p.priority = "Medium") := by
  have hpe : (calculate_score resumeText jdText).plan =
      (calculate_score resumeText jdText).missing.map (planItemOf (jdSkillPairs jdText)) := rfl
  refine ⟨?_, fun i h1 h2 => ?_, fun p hp => ?_⟩
  · rw [hpe, List.length_map]
  · have key : ((calculate_score resumeText jdText).missing.map
        (planItemOf (jdSkillPairs jdText))).get ⟨i, by rw [List.length_map]; exact h2⟩ =
        planItemOf (jdSkillPairs jdText)
          ((calculate_score resumeText jdText).missing.get ⟨i, h2⟩) := by
      rw [List.get_eq_getElem, List.get_eq_getElem, List.getElem_map]
    have key2 : (calculate_score resumeText jdText).plan.get ⟨i, h1⟩ =
        planItemOf (jdSkillPairs jdText)
          ((calculate_score resumeText jdText).missing.get ⟨i, h2⟩) := key
    rw [key2]
    set cat := lookupCat (jdSkillPairs jdText)
      ((calculate_score resumeText jdText).missing.get ⟨i, h2⟩) with hcat
    by_cases hc : cat = "programming" ∨ cat = "data_science"
    · have hb : (cat == "programming" || cat == "data_science") = true := by
        simp only [Bool.or_eq_true, beq_iff_eq]; exact hc
      simp only [planItemOf, hb, if_true]
      simpa using hc
    · have hb : (cat == "programming" || cat == "data_science") = false := by
        rw [Bool.or_eq_false_iff]
        constructor <;> rw [beq_eq_false_iff_ne] <;> tauto
      simp only [planItemOf, hb, Bool.false_eq_true, if_false]
      constructor
      · intro h; exact absurd h (by simp)
      · intro h; exact absurd h hc
  · rw [hpe] at hp
    obtain ⟨sk, hsk, rfl⟩ := List.mem_map.1 hp
    by_cases hc : (lookupCat (jdSkillPairs jdText) sk == "programming" ||
        lookupCat (jdSkillPairs jdText) sk == "data_science") = true
    · left; simp [planItemOf, hc]
    · right
      simp only [Bool.not_eq_true] at hc
      simp [planItemOf, hc]

/-- Witness for C7: a JD requiring python and aws against a resume with only
python leaves one missing cloud skill, whose plan item is not High. -/
theorem C7_improvement_plan_witness :
    ((calculate_score (toL "python") (toL "python aws")).plan.get ⟨0, by decide⟩).priority = "High" ↔
      (lookupCat (jdSkillPairs (toL "python aws"))
          ((calculate_score (toL "python") (toL "python aws")).missing.get ⟨0, by decide⟩) = "programming" ∨
       lookupCat (jdSkillPairs (toL "python aws"))
          ((calculate_score (toL "python") (toL "python aws")).missing.get ⟨0, by decide⟩) = "data_science") :=
  (C7_improvement_plan (toL "python") (toL "python aws")).2.1 0 (by decide) (by decide)

/-- C1 counterexample: in `calculate_score` skill presence is plain
substring containment, so for the text "javascripting" the skill
"javascript" is counted as matched even though it has no `\b`-delimited
occurrence there. -/
theorem C1_counterexample :
    (calculate_score (toL "javascripting") (toL "javascripting")).matched.contains
      (toL "javascript") = true ∧
    wbMatch (toL "javascript") (toL "javascripting") = false := by decide

/-- C1 amended: presence is whole-word only in `advanced_skill_matching`,
where "javascripting" does not yield "javascript"; there a term ending in a
non-word character fails its trailing boundary, so the text "c++" matches
neither the skill "c++" (while the bare term "c" would match) — whereas
`calculate_score` uses substring containment and does count "javascript"
inside "javascripting". -/
theorem C1_amended_matching_modes :
    (calculate_score (toL "javascripting") (toL "javascripting")).matched.contains
      (toL "javascript") = true ∧
    containsSub (toL "javascript") (lowerL (toL "javascripting")) = true ∧
    (advancedCategory [toL "javascript"] (toL "javascripting") (toL "javascripting")).matched = [] ∧
    (advancedCategory [toL "javascript"] (toL "the javascript stack") (toL "javascript")).matched
      = [toL "javascript"] ∧
    (advancedCategory [toL "c++"] (toL "c++") (toL "c++")).matched = [] ∧
    (advancedCategory [toL "c++"] (toL "c++") (toL "c++")).missing = [] ∧
    wbMatch (toL "c++") (toL "c++") = false ∧
    wbMatch (toL "c") (toL "c++") = true := by decide

/-- C3 counterexample: on the spec's own example (JD "python, aws, react",
resume "python, docker") the substring scan also finds the skill "r", so
matched is {python, r} and the score is 50, not round(1/3x100) = 33; and
for a JD with three skills of which two match, the score is the truncated
66 and not the rounded 67. -/
theorem C3_counterexample :
    (calculate_score (toL "python, docker") (toL "python, aws, react")).score = 50 ∧
    (calculate_score (toL "python, docker") (toL "python, aws, react")).matched
      = [toL "python", toL "r"] ∧
    roundHalfEven ((100 : ℚ) * 1 / 3) = 33 ∧
    (calculate_score (toL "aws gcp") (toL "aws gcp nlp")).score = 66 ∧
    (calculate_score (toL "aws gcp") (toL "aws gcp nlp")).matched.length = 2 ∧
    (jdSkillPairs (toL "aws gcp nlp")).length = 3 ∧
    roundHalfEven ((100 : ℚ) * 2 / 3) = 67 :=
  ⟨by decide, by decide, by norm_num [roundHalfEven], by decide, by decide, by decide,
   by norm_num [roundHalfEven]⟩

/-- C3 amended: whenever the JD scan finds at least one taxonomy skill the
skills-coverage score is the floor (Python `int()` truncation) of
100 x matchedCount / requiredCount, and when it finds none the score is 0
with an empty missing list. -/
theorem C3_amended (resumeText jdText : Txt) :
    ((jdSkillPairs jdText).length = 0 →
      (calculate_score resumeText jdText).score = 0 ∧
      (calculate_score resumeText jdText).missing = []) ∧
    (0 < (jdSkillPairs jdText).length →
      (calculate_score resumeText jdText).score =
        ⌊(100 * ((calculate_score resumeText jdText).matched.length : ℚ)) /
          ((jdSkillPairs jdText).length : ℚ)⌋₊) := by
  constructor
  · intro h0
    have hnil : jdSkillPairs jdText = [] := List.length_eq_zero.mp h0
    constructor <;> simp [calculate_score, hnil]
  · intro hpos
    have hne : ((jdSkillPairs jdText).map Prod.fst).isEmpty = false := by
      rw [List.isEmpty_eq_false_iff_exists_mem]
      rcases List.exists_mem_of_length_pos hpos with ⟨a, ha⟩
      exact ⟨a.1, List.mem_map_of_mem _ ha⟩
    have hsc : (calculate_score resumeText jdText).score =
        (100 * (calculate_score resumeText jdText).matched.length) /
          ((jdSkillPairs jdText).map Prod.fst).length := by
      simp only [calculate_score, hne, Bool.false_eq_true, if_false]
    rw [hsc, List.length_map]
    rw [show ((100 : ℚ) * ((calculate_score resumeText jdText).matched.length : ℚ)) =
      (((100 * (calculate_score resumeText jdText).matched.length : ℕ)) : ℚ) by push_cast; ring]
    rw [Nat.floor_div_eq_div]

/-- Witness for C3 amended: a JD with no taxonomy skill scores 0 with empty
missing list, and a 2-of-3 match scores the floored ratio. -/
theorem C3_amended_witness :
    ((calculate_score (toL "hello") (toL "zzz")).score = 0 ∧
      (calculate_score (toL "hello") (toL "zzz")).missing = []) ∧
    (calculate_score (toL "aws gcp") (toL "aws gcp nlp")).score =
      ⌊(100 * ((calculate_score (toL "aws gcp") (toL "aws gcp nlp")).matched.length : ℚ)) /
        ((jdSkillPairs (toL "aws gcp nlp")).length : ℚ)⌋₊ :=
  ⟨(C3_amended (toL "hello") (toL "zzz")).1 (by decide),
   (C3_amended (toL "aws gcp") (toL "aws gcp nlp")).2 (by decide)⟩

/-- The clamp is bounded below by 0. -/
theorem clamp01_nonneg (q : ℚ) : 0 ≤ clamp01 q := le_max_left 0 _

/-- The clamp is bounded above by 1. -/
theorem clamp01_le_one (q : ℚ) : clamp01 q ≤ 1 := max_le (by norm_num) (min_le_left 1 q)

/-- The hard-match score lies in [0,1] on every path, including the
word-overlap fallback. -/
theorem hard_match_score_bounds (o : VecOutcome) (resumeText jdText : Txt) :
    0 ≤ hard_match_score o resumeText jdText ∧ hard_match_score o resumeText jdText ≤ 1 := by
  cases o with
  | sim q => exact ⟨clamp01_nonneg q, clamp01_le_one q⟩
  | vecError =>
    simp only [hard_match_score]
    split_ifs with h
    · norm_num
    · have hlen : 0 < (wordsWS (lowerL jdText)).dedup.length := Nat.pos_of_ne_zero h
      have hfil : ((wordsWS (lowerL jdText)).dedup.filter
          fun w => (wordsWS (lowerL resumeText)).dedup.contains w).length ≤
          (wordsWS (lowerL jdText)).dedup.length := List.length_filter_le _ _
      constructor
      · positivity
      · rw [div_le_one (by exact_mod_cast hlen)]
        exact_mod_cast hfil

/-- The TF-IDF semantic fallback lies in [0,1]. -/
theorem tfidf_semantic_match_bounds (o : VecOutcome) :
    0 ≤ tfidf_semantic_match o ∧ tfidf_semantic_match o ≤ 1 := by
  cases o with
  | sim q => exact ⟨clamp01_nonneg q, clamp01_le_one q⟩
  | vecError => norm_num [tfidf_semantic_match]

/-- The semantic score lies in [0,1] on every tier. -/
theorem semantic_match_score_bounds (available : Bool) (primary tfidf : VecOutcome) :
    0 ≤ semantic_match_score available primary tfidf ∧
    semantic_match_score available primary tfidf ≤ 1 := by
  cases available with
  | false => exact tfidf_semantic_match_bounds tfidf
  | true =>
    cases primary with
    | sim q => exact ⟨clamp01_nonneg q, clamp01_le_one q⟩
    | vecError => exact tfidf_semantic_match_bounds tfidf

/-- Round-half-to-even of a nonnegative value is nonnegative. -/
theorem roundHalfEven_nonneg {q : ℚ} (h : 0 ≤ q) : 0 ≤ roundHalfEven q := by
  have hf : (0 : ℤ) ≤ ⌊q⌋ := Int.le_floor.mpr (by exact_mod_cast h)
  unfold roundHalfEven
  split_ifs <;> omega

/-- Round-half-to-even never exceeds an integer upper bound of its input. -/
theorem roundHalfEven_le {q : ℚ} {n : ℤ} (h : q ≤ (n : ℚ)) : roundHalfEven q ≤ n := by
  have hf : ⌊q⌋ ≤ n := by
    have := Int.floor_le_floor h
    simpa using this
  unfold roundHalfEven
  by_cases hhalf : q - ⌊q⌋ < 1/2
  · rw [if_pos hhalf]; exact hf
  · rw [if_neg hhalf]
    have hlt : ⌊q⌋ < n := by
      rcases lt_or_eq_of_le hf with hx | hx
      · exact hx
      · exfalso
        have hfl : (⌊q⌋ : ℚ) ≤ q := Int.floor_le q
        have hge : (1 : ℚ)/2 ≤ q - ⌊q⌋ := le_of_not_lt hhalf
        rw [hx] at hge
        linarith
    split_ifs <;> omega

/-- Two-decimal rounding keeps values of [0,100] inside [0,100]. -/
theorem round2_bounds {q : ℚ} (h0 : 0 ≤ q) (h1 : q ≤ 100) :
    0 ≤ round2 q ∧ round2 q ≤ 100 := by
  have ha : 0 ≤ roundHalfEven (q * 100) := roundHalfEven_nonneg (by nlinarith)
  have hb : roundHalfEven (q * 100) ≤ (10000 : ℤ) := roundHalfEven_le (by push_cast; nlinarith)
  constructor
  · unfold round2
    have : (0 : ℚ) ≤ (roundHalfEven (q * 100) : ℚ) := by exact_mod_cast ha
    positivity
  · unfold round2
    rw [div_le_iff₀ (by norm_num : (0:ℚ) < 100)]
    calc (roundHalfEven (q * 100) : ℚ) ≤ (10000 : ℚ) := by exact_mod_cast hb
      _ = 100 * 100 := by norm_num

/-- C6: under the default weights the combined text-similarity score is
round(100 x (0.4 x lexical + 0.6 x semantic), 2), and it always lies in
[0,100], whatever the vectorizer and embedding outcomes are. -/
theorem C6_combined_score (hOut : VecOutcome) (available : Bool)
    (primary tfidf : VecOutcome) (resumeText jdText : Txt) :
    combined_score none hOut available primary tfidf resumeText jdText =
      round2 (100 * ((2/5) * hard_match_score hOut resumeText jdText +
        (3/5) * semantic_match_score available primary tfidf)) ∧
    0 ≤ combined_score none hOut available primary tfidf resumeText jdText ∧
    combined_score none hOut available primary tfidf resumeText jdText ≤ 100 := by
  have hh := hard_match_score_bounds hOut resumeText jdText
  have hs := semantic_match_score_bounds available primary tfidf
  have heq : combined_score none hOut available primary tfidf resumeText jdText =
      round2 (((2/5) * hard_match_score hOut resumeText jdText +
        (3/5) * semantic_match_score available primary tfidf) * 100) := rfl
  have hxb : 0 ≤ ((2/5) * hard_match_score hOut resumeText jdText +
      (3/5) * semantic_match_score available primary tfidf) * 100 ∧
      ((2/5) * hard_match_score hOut resumeText jdText +
      (3/5) * semantic_match_score available primary tfidf) * 100 ≤ 100 := by
    constructor <;> nlinarith [hh.1, hh.2, hs.1, hs.2]
  have hb := round2_bounds hxb.1 hxb.2
  refine ⟨?_, ?_, ?_⟩
  · rw [heq]
    congr 1
    ring
  · rw [heq]; exact hb.1
  · rw [heq]; exact hb.2

/-- C8: the semantic matcher is total over its tiers: its value always lies
in [0,1], and when the embedding backend is unavailable or the primary path
raises, it equals the TF-IDF proxy rather than surfacing an error. -/
theorem C8_semantic_fallback (available : Bool) (primary tfidf : VecOutcome) :
    (0 ≤ semantic_match_score available primary tfidf ∧
     semantic_match_score available primary tfidf ≤ 1) ∧
    (available = false →
      semantic_match_score available primary tfidf = tfidf_semantic_match tfidf) ∧
    (primary = VecOutcome.vecError →
      semantic_match_score available primary tfidf = tfidf_semantic_match tfidf) := by
  refine ⟨semantic_match_score_bounds available primary tfidf, fun ha => ?_, fun hp => ?_⟩
  · subst ha; rfl
  · subst hp; cases available <;> rfl

/-- Witness for C8: the fallback equalities at concrete outcomes, both with
the backend unavailable and with the primary path raising. -/
theorem C8_semantic_fallback_witness :
    semantic_match_score false (VecOutcome.sim 1) (VecOutcome.sim 0) =
      tfidf_semantic_match (VecOutcome.sim 0) ∧
    semantic_match_score true VecOutcome.vecError (VecOutcome.sim 0) =
      tfidf_semantic_match (VecOutcome.sim 0) :=
  ⟨(C8_semantic_fallback false (VecOutcome.sim 1) (VecOutcome.sim 0)).2.1 rfl,
   (C8_semantic_fallback true VecOutcome.vecError (VecOutcome.sim 0)).2.2 rfl⟩

/-- Python `replace` leaves a text unchanged when the pattern does not occur
in it (any amount of fuel). -/
theorem replaceAllFuel_of_not_contains (p u : Txt) (fuel : ℕ) :
    ∀ s : Txt, containsSub p s = false → replaceAllFuel p u fuel s = s := by
  induction fuel with
  | zero => intro s h; rfl
  | succ n ih =>
    intro s h
    cases s with
    | nil => rfl
    | cons c cs =>
      have h2 : (p.isPrefixOf (c :: cs) || containsSub p cs) = false := h
      rw [Bool.or_eq_false_iff] at h2
      show replaceAllFuel p u (n + 1) (c :: cs) = c :: cs
      simp only [replaceAllFuel, h2.1, Bool.false_eq_true, if_false]
      rw [ih cs h2.2]

/-- A replacement pass leaves a text unchanged when none of the patterns
occurs in it. -/
theorem foldl_replaceAll_id (l : List (Txt × Txt)) (s : Txt)
    (h : ∀ pr ∈ l, containsSub pr.1 s = false) :
    l.foldl (fun acc pr => replaceAll pr.1 pr.2 acc) s = s := by
  induction l with
  | nil => rfl
  | cons pr l ih =>
    have h1 : containsSub pr.1 s = false := h pr (List.mem_cons_self _ _)
    have hr : replaceAll pr.1 pr.2 s = s := replaceAllFuel_of_not_contains _ _ _ s h1
    rw [List.foldl_cons, hr]
    exact ih fun q hq => h q (List.mem_cons_of_mem _ hq)

/-- A canonical text is a fixed point of `clean_text`. -/
theorem clean_text_fixed (u : Txt) (h : isCanonical u = true) : clean_text u = u := by
  simp only [isCanonical, Bool.and_eq_true, beq_iff_eq, List.all_eq_true,
    Bool.not_eq_true'] at h
  obtain ⟨⟨⟨⟨⟨h1, h2⟩, h3⟩, h4⟩, h5⟩, h6⟩ := h
  by_cases hn : u = []
  · subst hn; rfl
  · have hne : u.isEmpty = false := by simp [hn]
    simp only [clean_text, hne, Bool.false_eq_true, if_false]
    rw [h1, h2, h3, h4]
    have hr : applyReplacements u = u :=
      foldl_replaceAll_id replacementList u fun pr hpr => h5 pr hpr
    rw [hr]
    exact h6

/-- C4 counterexample: normalization is not idempotent.  The phrase
replacement "quality assurance" -> "qa" creates a fresh occurrence of
"artificial intelligence" across the seam, so
clean_text("quality assurancertificial intelligence") =
"qartificial intelligence", which a second pass rewrites to "qai". -/
theorem C4_counterexample :
    clean_text (clean_text (toL "quality assurancertificial intelligence")) ≠
      clean_text (toL "quality assurancertificial intelligence") := by decide

/-- C4 amended: normalization is idempotent on every input whose normal
form is canonical — fixed by each pipeline stage and free of
canonicalization phrases; it is not idempotent in general (see the
counterexample, where a truncating phrase replacement manufactures a new
phrase occurrence). -/
theorem C4_amended (t : Txt) (h : isCanonical (clean_text t) = true) :
    clean_text (clean_text t) = clean_text t :=
  clean_text_fixed _ h

set_option maxRecDepth 20000 in
/-- Witness for C4 amended at a concrete input whose normal form is
canonical. -/
theorem C4_witness :
    isCanonical (clean_text (toL "python and docker")) = true ∧
    clean_text (clean_text (toL "python and docker")) = clean_text (toL "python and docker") :=
  ⟨by decide, C4_amended _ (by decide)⟩

/-- Conversion of a valid codepoint round-trips through `Char.ofNat`. -/
theorem toNat_ofNat_of_valid {n : ℕ} (h : n.isValidChar) : (Char.ofNat n).toNat = n := by
  rw [Char.ofNat, dif_pos h]
  rfl

/-- Lowercasing never produces an uppercase ASCII letter. -/
theorem toLower_isUpper_eq_false (c : Char) : (Char.toLower c).isUpper = false := by
  have h90 : (90 : UInt32).toBitVec.toNat = 90 := rfl
  have h65 : (65 : UInt32).toBitVec.toNat = 65 := rfl
  rw [Char.toLower]
  by_cases h : c.toNat ≥ 65 ∧ c.toNat ≤ 90
  · rw [if_pos h]
    have hv : Nat.isValidChar (c.toNat + 32) := Or.inl (by omega)
    have ht : (Char.ofNat (c.toNat + 32)).toNat = c.toNat + 32 := toNat_ofNat_of_valid hv
    rw [Char.isUpper]
    have hbv : (Char.ofNat (c.toNat + 32)).val.toBitVec.toNat = c.toNat + 32 := ht
    have hnle : ¬ ((Char.ofNat (c.toNat + 32)).val ≤ 90) := by
      rw [UInt32.le_def, BitVec.le_def]
      omega
    simp [hnle]
  · rw [if_neg h]
    rw [Char.isUpper]
    have hbv : c.val.toBitVec.toNat = c.toNat := rfl
    rcases Nat.lt_or_ge c.toNat 65 with hlt | hge
    · have hnle : ¬ ((65 : UInt32) ≤ c.val) := by
        rw [UInt32.le_def, BitVec.le_def]
        omega
      simp [hnle]
    · have hgt : 90 < c.toNat := by omega
      have hnle : ¬ (c.val ≤ (90 : UInt32)) := by
        rw [UInt32.le_def, BitVec.le_def]
        omega
      simp [hnle]

/-- Stripping keeps only characters of the original text. -/
theorem mem_trimWs {c : Char} {t : Txt} (h : c ∈ trimWs t) : c ∈ t := by
  unfold trimWs at h
  rw [List.mem_reverse] at h
  have h2 := (List.dropWhile_suffix _).sublist.subset h
  rw [List.mem_reverse] at h2
  exact (List.dropWhile_suffix _).sublist.subset h2

/-- Characters of a line produced by the newline splitter come from the
accumulator or the remaining text. -/
theorem splitNlAux_subset :
    ∀ (s acc : Txt) (l : Txt), l ∈ splitNlAux acc s → ∀ c ∈ l, c ∈ acc.reverse ∨ c ∈ s := by
  intro s
  induction s with
  | nil =>
    intro acc l hl c hc
    simp only [splitNlAux, List.mem_singleton] at hl
    subst hl
    exact Or.inl hc
  | cons d ds ih =>
    intro acc l hl c hc
    by_cases hd : d = '\n'
    · rw [show splitNlAux acc (d :: ds) =
          (if d = '\n' then acc.reverse :: splitNlAux [] ds else splitNlAux (d :: acc) ds)
        from rfl, if_pos hd] at hl
      rcases List.mem_cons.mp hl with h | h
      · subst h; exact Or.inl hc
      · rcases ih [] l h c hc with h0 | h0
        · simp at h0
        · exact Or.inr (List.mem_cons_of_mem _ h0)
    · rw [show splitNlAux acc (d :: ds) =
          (if d = '\n' then acc.reverse :: splitNlAux [] ds else splitNlAux (d :: acc) ds)
        from rfl, if_neg hd] at hl
      rcases ih (d :: acc) l hl c hc with h0 | h0
      · rw [List.reverse_cons, List.mem_append] at h0
        rcases h0 with h0 | h0
        · exact Or.inl h0
        · simp only [List.mem_singleton] at h0
          subst h0
          exact Or.inr (List.mem_cons_self _ _)
      · exact Or.inr (List.mem_cons_of_mem _ h0)

/-- Characters of a line of `splitNl t` are characters of `t`. -/
theorem mem_splitNl {l t : Txt} (hl : l ∈ splitNl t) {c : Char} (hc : c ∈ l) : c ∈ t := by
  rcases splitNlAux_subset t [] l hl c hc with h | h
  · simp at h
  · exact h

/-- A lowercased text has no uppercase character. -/
theorem mem_lowerL_not_upper {c : Char} {t : Txt} (h : c ∈ lowerL t) : c.isUpper = false := by
  rcases List.mem_map.1 h with ⟨a, _, rfl⟩
  exact toLower_isUpper_eq_false a

/-- The text `extract_text` hands to the rest of `match_resume` has no
uppercase character. -/
theorem appExtractNormalize_not_upper (t : Txt) {c : Char}
    (h : c ∈ appExtractNormalize t) : c.isUpper = false := by
  unfold appExtractNormalize at h
  exact mem_lowerL_not_upper (mem_trimWs h)

/-- The capitalized-word pattern fails on a line without uppercase. -/
theorem capWord_eq_none {line : Txt} (h : ∀ c ∈ line, c.isUpper = false) :
    capWord line = none := by
  cases line with
  | nil => rfl
  | cons c cs =>
    have hc := h c (List.mem_cons_self _ _)
    simp only [capWord, hc, Bool.false_eq_true, if_false]

/-- The name pattern fails whenever its first capitalized word fails. -/
theorem nameMatch_eq_none {line : Txt} (h : capWord line = none) : nameMatch line = none := by
  simp only [nameMatch, h]

/-- The line scan returns nothing when no line matches the pattern. -/
theorem firstNameFrom_eq_none {lines : List Txt}
    (h : ∀ l ∈ lines, nameMatch l = none) : firstNameFrom lines = none := by
  induction lines with
  | nil => rfl
  | cons line rest ih =>
    have hn := h line (List.mem_cons_self _ _)
    have ihr := ih fun l hl => h l (List.mem_cons_of_mem _ hl)
    by_cases hh : isHeaderLine line = true
    · simp only [firstNameFrom, hh, if_true]
      exact ihr
    · simp only [firstNameFrom, hh, Bool.false_eq_true, if_false, hn]
      exact ihr

/-- C9 amended: `extract_candidate_name_from_text` examines the stripped
non-empty lines among the first 3 raw lines of the text it receives; in the
`match_resume` pipeline that text is the lowercased, whitespace-collapsed
output of `extract_text`, on which the uppercase-anchored pattern can never
match, so the pipeline extracts no name for any input. -/
theorem C9_amended (t : Txt) :
    extract_candidate_name_from_text (appExtractNormalize t) = none := by
  by_cases hne : (appExtractNormalize t).isEmpty = true
  · simp only [extract_candidate_name_from_text, hne, if_true]
  · simp only [extract_candidate_name_from_text, hne, Bool.false_eq_true, if_false]
    apply firstNameFrom_eq_none
    intro l hl
    apply nameMatch_eq_none
    apply capWord_eq_none
    intro c hc
    rcases List.mem_filter.1 hl with ⟨hl1, _⟩
    rcases List.mem_map.1 hl1 with ⟨l0, hl0, rfl⟩
    have hl0m : l0 ∈ splitNl (appExtractNormalize t) := List.mem_of_mem_take hl0
    exact appExtractNormalize_not_upper t (mem_splitNl hl0m (mem_trimWs hc))

/-- C9 counterexample: on "\n\n\nJohn Smith" the source function returns no
name (it only looks at the first 3 raw lines), while the claimed
first-3-non-empty-lines procedure returns "John Smith"; moreover in the
pipeline even "John Smith\nEngineer" yields no name because the text was
lowercased and newline-collapsed before extraction. -/
theorem C9_counterexample :
    extract_candidate_name_from_text (toL "\n\n\nJohn Smith") = none ∧
    specCandidateName (toL "\n\n\nJohn Smith") = some (toL "John Smith") ∧
    extract_candidate_name_from_text (appExtractNormalize (toL "John Smith\nEngineer")) = none ∧
    specCandidateName (toL "John Smith\nEngineer") = some (toL "John Smith") := by decide

/-- The word filter of `clean_text` keeps a word exactly when it has length
at least 2 or is one of the two single-character tech terms "c" and "r". -/
theorem keepWord_iff (w : Txt) :
    keepWord w = (decide (2 ≤ w.length) || (w == toL "c") || (w == toL "r")) := by
  match w with
  | [] => decide
  | [c] =>
    simp [keepWord, techTerms, toL, List.contains_cons, BEq.beq, List.beq]
  | c :: d :: rest =>
    have h2 : decide (2 ≤ (c :: d :: rest).length) = true := by
      simp
    simp [keepWord, h2]

/-- C10: normalization removes exactly the single-character words outside
the whitelist {c, r} — the only one-character entries of the tech-term
set — and keeps every word of length at least 2, so no other one-character
token survives the word-filter stage of `clean_text`. -/
theorem C10_one_char_whitelist :
    (∀ w : Txt, keepWord w =
      (decide (2 ≤ w.length) || (w == toL "c") || (w == toL "r"))) ∧
    (∀ t : Txt,
      (wordsWS ((collapseWs (lowerL t)).map keepAllowedElseSpace)).filter keepWord =
      (wordsWS ((collapseWs (lowerL t)).map keepAllowedElseSpace)).filter
        (fun w => decide (2 ≤ w.length) || (w == toL "c") || (w == toL "r"))) := by
  refine ⟨keepWord_iff, fun t => ?_⟩
  have hp : keepWord = fun w : Txt =>
      (decide (2 ≤ w.length) || (w == toL "c") || (w == toL "r")) := funext keepWord_iff
  rw [hp]

end ResumeMatch
